import Mathlib

/-!
Shallow embedding of the NautilusLB core (cloudresty/nautiluslb) and
verification of its specification claims.

Sources embedded:
- app/backend/backend.go (BackendServer, HealthCheck)
- app/loadbalancer (getNextBackend, HandleConnection, runHealthCheck,
  StartHealthChecks, StopHealthChecks)
- app/kubernetes/kubernetes.go (processServicesForConfig,
  processServiceForConfig, getNodeIPs, backendsEqual,
  discoverServicesForNamespace)

Go machine integers are modelled as Int (ports) and Nat (counters, ids);
no arithmetic here approaches overflow. Concurrency is modelled by explicit
interleaving of atomic steps; real-time sleeps are abstracted away (the
100 ms retry sleep and the 10 s probe cadence do not affect the
data-flow properties proved below).
-/

/-- backend.BackendServer (app/backend/backend.go lines 11-20).
The runtime-only fields ActiveConnections and PreviousHealthy are not
read by any embedded operation and are omitted. -/
structure BackendServer where
  id : Nat
  ip : String
  port : Int
  portName : String
  weight : Nat
  healthy : Bool
deriving Repr, DecidableEq

/-- config.Configuration (unnamed/part_008 second snapshot /
config package). The namespace field is called nspace because
Lean reserves the word. -/
structure Configuration where
  name : String
  listenerAddress : String
  requestTimeout : Int
  backendPortName : String
  nspace : String
deriving Repr, DecidableEq

/-- The port-name filter inside getNextBackend
(loadbalancer, unnamed/part_009 lines 241-257): keep the backends whose
PortName equals lb.config.BackendPortName. -/
def filterByPortName (servers : List BackendServer) (portName : String) :
    List BackendServer :=
  servers.filter (fun s => s.portName == portName)

/-- One retry-bounded selection loop of getNextBackend
(unnamed/part_009 lines 227-282), fuel = remaining attempts
(maxRetries = 3 in the source). Each attempt: if the server list is
empty return nil; filter by port name; if the filtered list is empty
return nil; advance the cursor modulo the filtered length; if the
indexed backend is healthy return it, otherwise sleep 100 ms (abstracted)
and retry with the advanced cursor. The returned Nat is lb.nextServer
after the call. -/
def getNextBackendAux (servers : List BackendServer) (portName : String) :
    Nat → Nat → Option BackendServer × Nat
  | 0, cursor => (none, cursor)
  | fuel + 1, cursor =>
    if servers.isEmpty then (none, cursor)
    else
      let filtered := filterByPortName servers portName
      if h : filtered.length = 0 then (none, cursor)
      else
        let c := (cursor + 1) % filtered.length
        let s := filtered.get ⟨c, Nat.mod_lt _ (Nat.pos_of_ne_zero h)⟩
        if s.healthy then (some s, c)
        else getNextBackendAux servers portName fuel c

/-- getNextBackend with the source's maxRetries = 3. -/
def getNextBackend (servers : List BackendServer) (portName : String)
    (cursor : Nat) : Option BackendServer × Nat :=
  getNextBackendAux servers portName 3 cursor

theorem filterByPortName_portName {servers : List BackendServer}
    {portName : String} {b : BackendServer}
    (hb : b ∈ filterByPortName servers portName) : b.portName = portName := by
  have h := (List.mem_filter.mp hb).2
  exact eq_of_beq h

theorem getNextBackendAux_some (servers : List BackendServer) (pn : String) :
    ∀ (fuel cursor c : Nat) (b : BackendServer),
      getNextBackendAux servers pn fuel cursor = (some b, c) →
      b ∈ filterByPortName servers pn ∧ b.healthy = true := by
  intro fuel
  induction fuel with
  | zero =>
    intro cursor c b h
    simp [getNextBackendAux] at h
  | succ n ih =>
    intro cursor c b h
    unfold getNextBackendAux at h
    split at h
    · simp at h
    · dsimp only at h
      split at h
      · simp at h
      · split at h
        · rename_i hempty hne hhealthy
          have hb : b ∈ filterByPortName servers pn := by
            have hsome : some _ = some b := congrArg Prod.fst h
            have hEq := Option.some.inj hsome
            rw [← hEq]
            exact List.get_mem _ _ _
          refine ⟨hb, ?_⟩
          have hsome : some _ = some b := congrArg Prod.fst h
          have hEq := Option.some.inj hsome
          rw [← hEq]
          exact hhealthy
        · exact ih _ _ b h

theorem getNextBackendAux_none (servers : List BackendServer) (pn : String)
    (hall : ∀ b ∈ filterByPortName servers pn, b.healthy = false) :
    ∀ (fuel cursor : Nat),
      (getNextBackendAux servers pn fuel cursor).1 = none := by
  intro fuel
  induction fuel with
  | zero => intro cursor; simp [getNextBackendAux]
  | succ n ih =>
    intro cursor
    unfold getNextBackendAux
    split
    · rfl
    · dsimp only
      split
      · rfl
      · split
        · rename_i hempty hne hhealthy
          exfalso
          have hmem := List.get_mem (filterByPortName servers pn)
            ((cursor + 1) % (filterByPortName servers pn).length)
            (Nat.mod_lt _ (Nat.pos_of_ne_zero hne))
          have hfalse := hall _ hmem
          rw [hfalse] at hhealthy
          exact Bool.false_ne_true hhealthy
        · exact ih _

/-- C1: for any pool state and configured backend port name, every
backend returned by getNextBackend matches the configured port name and
has its healthy flag true, and when every port-matching backend is
unhealthy the call returns none (after its three attempts, modelled by
the fuel value 3) rather than an unhealthy backend. The 100 ms sleep
between attempts is a real-time effect abstracted away. -/
theorem getNextBackend_contract (servers : List BackendServer)
    (pn : String) (cursor : Nat) :
    (∀ (b : BackendServer) (c : Nat),
        getNextBackend servers pn cursor = (some b, c) →
        b.portName = pn ∧ b.healthy = true) ∧
    ((∀ b ∈ filterByPortName servers pn, b.healthy = false) →
        (getNextBackend servers pn cursor).1 = none) := by
  constructor
  · intro b c h
    have hres := getNextBackendAux_some servers pn 3 cursor c b h
    exact ⟨filterByPortName_portName hres.1, hres.2⟩
  · intro hall
    exact getNextBackendAux_none servers pn hall 3 cursor

/-- A concrete healthy backend used by the witnesses. -/
def bHttp : BackendServer :=
  { id := 1, ip := "192.168.1.1", port := 8080, portName := "http",
    weight := 1, healthy := true }

/-- A second concrete healthy backend used by the witnesses. -/
def bHttp2 : BackendServer :=
  { id := 2, ip := "192.168.1.2", port := 8080, portName := "http",
    weight := 1, healthy := true }

/-- Witness for C1 at a concrete one-backend pool. -/
theorem getNextBackend_contract_witness :
    bHttp.portName = "http" ∧ bHttp.healthy = true :=
  (getNextBackend_contract [bHttp] "http" 0).1 bHttp 0 (by decide)

/-- The mutable probe-owned state of one BackendServer inside
BackendServer.HealthCheck (app/backend/backend.go lines 25-29):
the Healthy flag and the loop-local failureCounter. -/
structure ProbeState where
  healthy : Bool
  failureCounter : Nat
deriving Repr, DecidableEq

/-- The state update of one iteration of BackendServer.HealthCheck
(app/backend/backend.go lines 39-68): on a dial error increment
failureCounter and, when it has reached retryLimit = 3 while the server
is healthy, flip Healthy to false; on dial success reset failureCounter
to 0 and set Healthy to true (the source sets it inside "if
!server.Healthy", twice, which is the same as setting it
unconditionally). -/
def healthStep (s : ProbeState) (dialOk : Bool) : ProbeState :=
  if dialOk then
    { healthy := true, failureCounter := 0 }
  else
    { healthy := if s.failureCounter + 1 ≥ 3 ∧ s.healthy then false
                 else s.healthy,
      failureCounter := s.failureCounter + 1 }

/-- The probe loop folded over a list of dial outcomes
(true = dial succeeded). -/
def healthRun (s : ProbeState) (dials : List Bool) : ProbeState :=
  dials.foldl healthStep s

/-- The number of consecutive dial failures at the end of a dial-outcome
list: the length of its all-failure suffix. -/
def trailingFailures (dials : List Bool) : Nat :=
  (dials.reverse.takeWhile (fun b => !b)).length

theorem healthRun_append (s : ProbeState) (l : List Bool) (b : Bool) :
    healthRun s (l ++ [b]) = healthStep (healthRun s l) b := by
  simp [healthRun, List.foldl_append]

theorem healthRun_counter (s : ProbeState) :
    ∀ l : List Bool,
      (healthRun s l).failureCounter =
        if l.all (fun b => !b) then s.failureCounter + l.length
        else trailingFailures l := by
  intro l
  induction l using List.reverseRecOn with
  | nil => simp [healthRun, trailingFailures]
  | append_singleton l b ih =>
    rw [healthRun_append]
    cases b with
    | false =>
      have hstep : (healthStep (healthRun s l) false).failureCounter
          = (healthRun s l).failureCounter + 1 := by
        simp [healthStep]
      rw [hstep, ih]
      have htf : trailingFailures (l ++ [false]) = trailingFailures l + 1 := by
        simp [trailingFailures, List.reverse_append, List.takeWhile_cons]
      by_cases hall : l.all (fun b => !b)
      · have hall2 : (l ++ [false]).all (fun b => !b) = true := by
          simp [List.all_append, hall]
        rw [if_pos hall, if_pos hall2]
        simp only [List.length_append, List.length_cons, List.length_nil]
        omega
      · have hall2 : ¬ ((l ++ [false]).all (fun b => !b) = true) := by
          simp only [List.all_append, Bool.and_eq_true]
          intro hcon
          exact hall hcon.1
        rw [if_neg hall, if_neg hall2, htf]
    | true =>
      have hstep : (healthStep (healthRun s l) true).failureCounter = 0 := by
        simp [healthStep]
      rw [hstep]
      have hall2 : ¬ ((l ++ [true]).all (fun b => !b) = true) := by
        simp [List.all_append]
      rw [if_neg hall2]
      have htf : trailingFailures (l ++ [true]) = 0 := by
        simp [trailingFailures, List.reverse_append, List.takeWhile_cons]
      rw [htf]

/-- C5: debouncing of the health flag. (i) An iteration flips a healthy
server to unhealthy only when the dial failed and the updated
consecutive-failure counter has reached 3. (ii) An iteration whose dial
succeeded leaves the server healthy with the counter reset to 0 (in
particular an unhealthy server flips back on a single success).
(iii) Starting from the optimistic initial state (healthy, counter 0),
after any dial history the counter equals the number of consecutive
trailing failures, so a flip to unhealthy happens exactly at the third
consecutive failure of a streak. -/
theorem healthCheck_debounce (s : ProbeState) (dialOk : Bool) :
    ((healthStep s dialOk).healthy = false ∧ s.healthy = true →
        dialOk = false ∧ 3 ≤ (healthStep s dialOk).failureCounter) ∧
    (dialOk = true →
        (healthStep s dialOk).healthy = true ∧
        (healthStep s dialOk).failureCounter = 0) ∧
    (∀ l : List Bool,
        (healthRun ⟨true, 0⟩ l).failureCounter = trailingFailures l) := by
  refine ⟨?_, ?_, ?_⟩
  · intro hflip
    cases dialOk with
    | true =>
      exfalso
      have := hflip.1
      simp [healthStep] at this
    | false =>
      refine ⟨rfl, ?_⟩
      have hh := hflip.1
      simp only [healthStep, Bool.false_eq_true, if_false] at hh ⊢
      by_cases hc : s.failureCounter + 1 ≥ 3 ∧ s.healthy = true
      · omega
      · rw [if_neg (by simpa using hc)] at hh
        rw [hflip.2] at hh
        exact absurd hh (by simp)
  · intro hok
    subst hok
    simp [healthStep]
  · intro l
    have h := healthRun_counter ⟨true, 0⟩ l
    by_cases hall : l.all (fun b => !b)
    · rw [h, if_pos hall]
      simp only [trailingFailures]
      have : l.reverse.takeWhile (fun b => !b) = l.reverse := by
        apply List.takeWhile_eq_self_iff.mpr
        intro b hb
        rw [List.mem_reverse] at hb
        exact List.all_eq_true.mp hall b hb
      rw [this, List.length_reverse]
      omega
    · rw [h, if_neg hall]

/-- Witness for C5: the third consecutive failure while healthy flips
the flag, and the run-level counter matches the trailing-failure count
after the history fail-fail-fail. -/
theorem healthCheck_debounce_witness :
    (false = false ∧ 3 ≤ (healthStep ⟨true, 2⟩ false).failureCounter) ∧
    (healthRun ⟨true, 0⟩ [false, false, false]).failureCounter =
      trailingFailures [false, false, false] :=
  ⟨(healthCheck_debounce ⟨true, 2⟩ false).1 ⟨by decide, rfl⟩,
   (healthCheck_debounce ⟨true, 0⟩ true).2.2 [false, false, false]⟩

/-- One full iteration of BackendServer.HealthCheck
(app/backend/backend.go lines 33-77) including its effect on the probe
connection handle. The returned Bool records whether conn.Close() was
invoked while conn was the nil handle: after the if/else on the dial
error the source runs an unconditional conn.Close() (backend.go line 69,
unnamed/part_014 line 90), which in the error branch executes on the nil
connection returned by net.DialTimeout (in Go, a nil-pointer panic). -/
def healthCheckIteration (s : ProbeState) (dialOk : Bool) :
    ProbeState × Bool :=
  if dialOk then
    (healthStep s true, false)
  else
    (healthStep s false, true)

/-- C10 failing-input evaluation: in an iteration whose dial fails, the
failure bookkeeping completes (counter increments from 0 to 1, the
healthy flag stays true) but the unconditional Close at backend.go line
69 runs on the nil connection handle, contradicting the claim that no
method is invoked on the nil handle. -/
theorem healthCheckIteration_closes_nil_conn :
    (healthCheckIteration ⟨true, 0⟩ false).1 = ⟨true, 1⟩ ∧
    (healthCheckIteration ⟨true, 0⟩ false).2 = true := by
  constructor
  · simp [healthCheckIteration, healthStep]
  · rfl

/-- The interleaving state of one LoadBalancer's stop signal together
with one running probe: stopped models whether close(lb.stopHealthChecks)
has happened (unnamed/part_009 lines 330-348), probe is the probe's
state and attempts counts the dial attempts the probe has performed. -/
structure ProbeWorld where
  stopped : Bool
  probe : ProbeState
  attempts : Nat
deriving Repr, DecidableEq

/-- Events of the ProbeWorld interleaving. -/
inductive WorldEvent where
  | stopHealthChecks
  | probeIteration (dialOk : Bool)
deriving Repr, DecidableEq

/-- One interleaved step. stopHealthChecks closes the stop channel
(unnamed/part_009 line 346). probeIteration is the body of
BackendServer.HealthCheck's for-loop (backend.go lines 33-77): the body
contains no receive on lb.stopHealthChecks (the channel's only reader is
areHealthChecksStopped, called from Stop's wait loop, unnamed/part_009
lines 350-359), so the iteration is enabled and identical whether or not
stopped is set. -/
def worldStep (w : ProbeWorld) : WorldEvent → ProbeWorld
  | .stopHealthChecks =>
      { stopped := true, probe := w.probe, attempts := w.attempts }
  | .probeIteration dialOk =>
      { stopped := w.stopped, probe := healthStep w.probe dialOk,
        attempts := w.attempts + 1 }

/-- A fresh ProbeWorld: stop not signalled, optimistic healthy probe,
no attempts yet. -/
def initialProbeWorld : ProbeWorld :=
  { stopped := false, probe := ⟨true, 0⟩, attempts := 0 }

/-- C9 failing-input evaluation: after StopHealthChecks has closed the
stop channel, the probe loop still performs its next dial attempt - the
loop body never reads the stop signal - contradicting the claim that a
probe performs no further attempts once its LoadBalancer is stopped. -/
theorem probe_attempts_after_stop :
    (worldStep initialProbeWorld .stopHealthChecks).stopped = true ∧
    (worldStep (worldStep initialProbeWorld .stopHealthChecks)
        (.probeIteration false)).attempts = 1 ∧
    (worldStep (worldStep initialProbeWorld .stopHealthChecks)
        (.probeIteration false)).stopped = true := by
  refine ⟨rfl, rfl, rfl⟩

/-- The Go map key "ip:port" built with fmt.Sprintf in runHealthCheck
and backendsEqual (unnamed/part_009 line 301, kubernetes.go line 548). -/
def keyString (b : BackendServer) : String :=
  b.ip ++ ":" ++ toString b.port

/-- The per-LoadBalancer state relevant to health-check deduplication
(unnamed/part_009): healthCheckMap holds the keys for which a
health-check loop was ever launched; startedLoops is the log of loop
launches (one entry per started loop); backendServers is the published
list. -/
structure ProxyState where
  healthCheckMap : List String
  startedLoops : List String
  backendServers : List BackendServer
deriving Repr, DecidableEq

/-- runHealthCheck (unnamed/part_009 lines 297-327): under the lock,
if the server's "ip:port" key is already in healthCheckMap, return
without starting anything; otherwise record the key and start the
(never-terminating) health-check loop. Keys are never removed. -/
def runHealthCheck (s : ProxyState) (server : BackendServer) : ProxyState :=
  if s.healthCheckMap.contains (keyString server) then s
  else
    { healthCheckMap := keyString server :: s.healthCheckMap,
      startedLoops := keyString server :: s.startedLoops,
      backendServers := s.backendServers }

/-- StartHealthChecks (unnamed/part_009 lines 285-295): snapshot the
backend list and invoke runHealthCheck for each backend. The goroutines
serialize on lb.mu inside runHealthCheck; the fold models one
serialization order (the invariant below holds for every order). -/
def startHealthChecks (s : ProxyState) : ProxyState :=
  s.backendServers.foldl runHealthCheck s

/-- The LoadBalancer events that touch the probe bookkeeping:
publication (SetBackendServers, which does not modify healthCheckMap)
and StartHealthChecks. -/
inductive ProxyEvent where
  | publishBackends (backends : List BackendServer)
  | startHealthChecks
deriving Repr, DecidableEq

def proxyStep (s : ProxyState) : ProxyEvent → ProxyState
  | .publishBackends bs =>
      { healthCheckMap := s.healthCheckMap,
        startedLoops := s.startedLoops, backendServers := bs }
  | .startHealthChecks => startHealthChecks s

/-- A fresh LoadBalancer as built by NewLoadBalancer
(unnamed/part_009 lines 34-50): empty healthCheckMap, no loops started. -/
def initialProxyState (bs : List BackendServer) : ProxyState :=
  { healthCheckMap := [], startedLoops := [], backendServers := bs }

def runEvents (s : ProxyState) (evs : List ProxyEvent) : ProxyState :=
  evs.foldl proxyStep s

/-- The deduplication invariant: each key has been launched at most
once, and every launched key is recorded in healthCheckMap. -/
def probeInvariant (s : ProxyState) : Prop :=
  ∀ k : String, s.startedLoops.count k ≤ 1 ∧
    (k ∈ s.startedLoops → k ∈ s.healthCheckMap)

theorem runHealthCheck_invariant {s : ProxyState}
    (hs : probeInvariant s) (server : BackendServer) :
    probeInvariant (runHealthCheck s server) := by
  intro k
  unfold runHealthCheck
  split
  · exact hs k
  · rename_i hnotin
    by_cases hk : k = keyString server
    · have hnotmem : k ∉ s.startedLoops := by
        intro hmem
        have hmap := (hs k).2 hmem
        rw [hk] at hmap
        have : s.healthCheckMap.contains (keyString server) = true := by
          simpa using hmap
        exact hnotin this
      constructor
      · have hzero : s.startedLoops.count k = 0 :=
          List.count_eq_zero.mpr hnotmem
        rw [hk] at hzero ⊢
        simp only [List.count_cons_self]
        omega
      · intro _
        rw [hk]
        exact List.mem_cons_self _ _
    · constructor
      · simp only [List.count_cons_of_ne hk]
        exact (hs k).1
      · intro hmem
        rcases List.mem_cons.mp hmem with h1 | h2
        · exact absurd h1 hk
        · exact List.mem_cons_of_mem _ ((hs k).2 h2)

theorem foldl_runHealthCheck_invariant {s : ProxyState}
    (hs : probeInvariant s) (bs : List BackendServer) :
    probeInvariant (bs.foldl runHealthCheck s) := by
  induction bs generalizing s with
  | nil => exact hs
  | cons b rest ih =>
    exact ih (runHealthCheck_invariant hs b)

theorem proxyStep_invariant {s : ProxyState}
    (hs : probeInvariant s) (ev : ProxyEvent) :
    probeInvariant (proxyStep s ev) := by
  cases ev with
  | publishBackends bs =>
    intro k
    exact hs k
  | startHealthChecks =>
    exact foldl_runHealthCheck_invariant hs s.backendServers

theorem runEvents_invariant {s : ProxyState} (hs : probeInvariant s)
    (evs : List ProxyEvent) : probeInvariant (runEvents s evs) := by
  induction evs generalizing s with
  | nil => exact hs
  | cons ev rest ih =>
    exact ih (proxyStep_invariant hs ev)

/-- C8: starting from a fresh LoadBalancer, across any sequence of
publications and StartHealthChecks calls, at most one health-check loop
is ever started for each "ip:port" key - so at no point are two loops
active for the same key within one LoadBalancer. -/
theorem healthCheck_dedup (bs : List BackendServer)
    (evs : List ProxyEvent) (k : String) :
    (runEvents (initialProxyState bs) evs).startedLoops.count k ≤ 1 := by
  have hinit : probeInvariant (initialProxyState bs) := by
    intro k0
    constructor
    · simp [initialProxyState]
    · intro h
      simp [initialProxyState] at h
  exact ((runEvents_invariant hinit evs) k).1

/-- Outcome of the outbound net.Dial in HandleConnection, classified the
way the source's error handling does (unnamed/part_009 lines 151-175):
success; a *net.OpError with Op == "dial" and Net == "tcp" (logged as
connection refused); another *net.OpError (logged as network error);
or an error that is not a *net.OpError (only the generic log fires). -/
inductive DialOutcome where
  | ok
  | refusedTCP
  | otherNetErr
  | nonOpErr
deriving Repr, DecidableEq

/-- Observable trace of one HandleConnection session
(unnamed/part_009 lines 100-200). dialTimeoutSeconds records the
deadline passed to the outbound dial: the source calls net.Dial (line
151), which takes no deadline, so this field is none on every path;
lb.requestTimeout is never wired into the dial. relaysStarted records
whether the two copyData goroutines were launched (lines 185-186);
clientConnClosed records the deferred close of the client connection
(lines 102-107); backendsTried counts outbound dial attempts. -/
structure SessionTrace where
  selectedBackend : Option BackendServer
  dialTimeoutSeconds : Option Int
  loggedGenericDialFailure : Bool
  loggedRefused : Bool
  loggedOtherNetError : Bool
  relaysStarted : Bool
  clientConnClosed : Bool
  backendsTried : Nat
deriving Repr, DecidableEq

/-- HandleConnection (unnamed/part_009 lines 100-200) as a session
trace. If getNextBackend returns nil, log and return (the deferred
close still runs). Otherwise dial the backend with net.Dial; on error
log (with the refused / other-network distinction for *net.OpError) and
then fall through - the source has no early return in the error branch -
so the two copyData relays are started on every dial outcome and no
second backend is ever tried. -/
def handleConnection (servers : List BackendServer) (cfg : Configuration)
    (cursor : Nat) (dial : DialOutcome) : SessionTrace :=
  match (getNextBackend servers cfg.backendPortName cursor).1 with
  | none =>
      { selectedBackend := none, dialTimeoutSeconds := none,
        loggedGenericDialFailure := false, loggedRefused := false,
        loggedOtherNetError := false, relaysStarted := false,
        clientConnClosed := true, backendsTried := 0 }
  | some b =>
      match dial with
      | .ok =>
          { selectedBackend := some b, dialTimeoutSeconds := none,
            loggedGenericDialFailure := false, loggedRefused := false,
            loggedOtherNetError := false, relaysStarted := true,
            clientConnClosed := true, backendsTried := 1 }
      | .refusedTCP =>
          { selectedBackend := some b, dialTimeoutSeconds := none,
            loggedGenericDialFailure := true, loggedRefused := true,
            loggedOtherNetError := false, relaysStarted := true,
            clientConnClosed := true, backendsTried := 1 }
      | .otherNetErr =>
          { selectedBackend := some b, dialTimeoutSeconds := none,
            loggedGenericDialFailure := true, loggedRefused := false,
            loggedOtherNetError := true, relaysStarted := true,
            clientConnClosed := true, backendsTried := 1 }
      | .nonOpErr =>
          { selectedBackend := some b, dialTimeoutSeconds := none,
            loggedGenericDialFailure := true, loggedRefused := false,
            loggedOtherNetError := false, relaysStarted := true,
            clientConnClosed := true, backendsTried := 1 }

/-- The concrete configuration used in the evaluations, matching the
repository's own test fixture (app/loadbalancer/loadbalancer_test.go
lines 13-19). -/
def cfgHttp : Configuration :=
  { name := "test-lb", listenerAddress := ":8080", requestTimeout := 30,
    backendPortName := "http", nspace := "default" }

/-- C4 failing-input evaluation: with one healthy backend whose dial is
refused, the failure is logged with the refused distinction, the client
connection is closed and no second backend is tried - but the two byte
relays ARE started (on the nil backend connection), because the dial
error branch lost its early return (compare unnamed/part_010 line 135,
where the return is present). -/
theorem handleConnection_dialFailure_starts_relays :
    (handleConnection [bHttp] cfgHttp 0 .refusedTCP).loggedRefused = true ∧
    (handleConnection [bHttp] cfgHttp 0 .refusedTCP).clientConnClosed = true ∧
    (handleConnection [bHttp] cfgHttp 0 .refusedTCP).backendsTried = 1 ∧
    (handleConnection [bHttp] cfgHttp 0 .refusedTCP).relaysStarted = true := by
  refine ⟨?_, ?_, ?_, ?_⟩ <;> decide

/-- C6 counterexample: the configuration carries requestTimeout = 30
seconds, yet the outbound dial of the session carries no deadline at
all (net.Dial, unnamed/part_009 line 151) - neither the configured
timeout nor any fallback default. -/
theorem handleConnection_no_dial_deadline_counterexample :
    cfgHttp.requestTimeout = 30 ∧
    (handleConnection [bHttp] cfgHttp 0 .ok).dialTimeoutSeconds = none ∧
    (handleConnection [bHttp] cfgHttp 0 .ok).dialTimeoutSeconds ≠
      some cfgHttp.requestTimeout := by
  refine ⟨rfl, ?_, ?_⟩ <;> decide

/-- C6 amended: on every path of HandleConnection the outbound dial is
performed with net.Dial and carries no explicit deadline; the
configured request timeout is stored on the LoadBalancer but is not
applied to the dial. -/
theorem handleConnection_dial_no_deadline (servers : List BackendServer)
    (cfg : Configuration) (cursor : Nat) (dial : DialOutcome) :
    (handleConnection servers cfg cursor dial).dialTimeoutSeconds = none := by
  unfold handleConnection
  split
  · rfl
  · cases dial <;> rfl

/-- corev1.ServiceType as used by the source switch statements
(kubernetes.go lines 488-534). -/
inductive ServiceType where
  | nodePort
  | loadBalancer
  | clusterIP
  | other (typeName : String)
deriving Repr, DecidableEq

/-- One corev1.ServicePort as read by the source: Name, NodePort and
TargetPort.IntVal. -/
structure ServicePort where
  name : String
  nodePort : Int
  targetPort : Int
deriving Repr, DecidableEq

/-- One corev1.Service as read by the source: name, annotations map
(modelled as an association list, first binding wins), type, ClusterIP
and ports. -/
structure Service where
  name : String
  annotations : List (String × String)
  serviceType : ServiceType
  clusterIP : String
  ports : List ServicePort
deriving Repr, DecidableEq

/-- The opt-in annotation key (kubernetes.go lines 181 and 469). -/
def enableKey : String := "nautiluslb.cloudresty.io/enabled"

/-- Go map read service.Annotations[enableKey]: ok is whether the key is
present. -/
def lookupEnabled (svc : Service) : Option String :=
  (svc.annotations.find? (fun kv => kv.1 == enableKey)).map (fun kv => kv.2)

/-- The annotation gate of processServicesForConfig (kubernetes.go line
469): a service survives iff the key is present and its value is the
exact string "true". -/
def serviceEnabled (svc : Service) : Bool :=
  match lookupEnabled svc with
  | some v => v == "true"
  | none => false

/-- One corev1.NodeAddress: its type (kind) and address. -/
structure NodeAddress where
  kind : String
  address : String
deriving Repr, DecidableEq

/-- One corev1.Node as read by getNodeIPs: its status addresses. -/
structure NodeRecord where
  addresses : List NodeAddress
deriving Repr, DecidableEq

/-- The address kind corev1.NodeInternalIP. -/
def internalIPKind : String := "InternalIP"

/-- The inner loop of getNodeIPs (kubernetes.go lines 367-374): the
first address of kind InternalIP of one node, none if the node has no
internal address. -/
def firstInternalIP (node : NodeRecord) : Option String :=
  (node.addresses.find? (fun a => a.kind == internalIPKind)).map
    (fun a => a.address)

/-- getNodeIPs (kubernetes.go lines 356-378) over an already-fetched
node list: one IP per node that has an internal address. -/
def getNodeIPs (nodes : List NodeRecord) : List String :=
  nodes.filterMap firstInternalIP

/-- The inner node loop of the NodePort / LoadBalancer case of
processServiceForConfig (kubernetes.go lines 495-507): one backend per
node IP for the given matching port, threading the backend id counter. -/
def emitNodeBackends (port : ServicePort) (nodeIPs : List String)
    (backendID : Nat) : List BackendServer × Nat :=
  match nodeIPs with
  | [] => ([], backendID)
  | ip :: rest =>
      let b : BackendServer :=
        { id := backendID, ip := ip, port := port.nodePort,
          portName := port.name, weight := 1, healthy := true }
      let r := emitNodeBackends port rest (backendID + 1)
      (b :: r.1, r.2)

/-- The port loop of the NodePort / LoadBalancer case of
processServiceForConfig (kubernetes.go lines 490-508): skip ports whose
name differs from cfg.BackendPortName, otherwise emit one backend per
node IP. -/
def nodePortLoop (nodeIPs : List String) (cfgPortName : String) :
    List ServicePort → Nat → List BackendServer × Nat
  | [], backendID => ([], backendID)
  | port :: rest, backendID =>
      if port.name == cfgPortName then
        let r1 := emitNodeBackends port nodeIPs backendID
        let r2 := nodePortLoop nodeIPs cfgPortName rest r1.2
        (r1.1 ++ r2.1, r2.2)
      else nodePortLoop nodeIPs cfgPortName rest backendID

/-- The port loop of the ClusterIP case of processServiceForConfig
(kubernetes.go lines 510-528): skip ports whose name differs from
cfg.BackendPortName, emit one backend (ClusterIP, TargetPort) when
TargetPort.IntVal > 0. -/
def clusterIPLoop (clusterIP : String) (cfgPortName : String) :
    List ServicePort → Nat → List BackendServer × Nat
  | [], backendID => ([], backendID)
  | port :: rest, backendID =>
      if port.name == cfgPortName then
        if 0 < port.targetPort then
          let b : BackendServer :=
            { id := backendID, ip := clusterIP, port := port.targetPort,
              portName := port.name, weight := 1, healthy := true }
          let r := clusterIPLoop clusterIP cfgPortName rest (backendID + 1)
          (b :: r.1, r.2)
        else clusterIPLoop clusterIP cfgPortName rest backendID
      else clusterIPLoop clusterIP cfgPortName rest backendID

/-- processServiceForConfig (kubernetes.go lines 485-537): dispatch on
the service type; other types contribute nothing. The source calls
getNodeIPs() per matching port; the node inventory is passed here as
the already-extracted nodeIPs list (stable within one cycle). -/
def processServiceForConfig (nodeIPs : List String) (svc : Service)
    (cfg : Configuration) (backendID : Nat) : List BackendServer × Nat :=
  match svc.serviceType with
  | .nodePort => nodePortLoop nodeIPs cfg.backendPortName svc.ports backendID
  | .loadBalancer =>
      nodePortLoop nodeIPs cfg.backendPortName svc.ports backendID
  | .clusterIP =>
      clusterIPLoop svc.clusterIP cfg.backendPortName svc.ports backendID
  | .other _ => ([], backendID)

/-- The service loop of processServicesForConfig (kubernetes.go lines
463-482): drop services whose enable annotation is absent or not
exactly "true", concatenate the per-service backends, threading the id
counter which starts at 1. -/
def processServicesLoop (nodeIPs : List String) (cfg : Configuration) :
    List Service → Nat → List BackendServer × Nat
  | [], backendID => ([], backendID)
  | svc :: rest, backendID =>
      if serviceEnabled svc then
        let r1 := processServiceForConfig nodeIPs svc cfg backendID
        let r2 := processServicesLoop nodeIPs cfg rest r1.2
        (r1.1 ++ r2.1, r2.2)
      else processServicesLoop nodeIPs cfg rest backendID

/-- processServicesForConfig (kubernetes.go lines 463-482) with the
source's initial backendID = 1. -/
def processServicesForConfig (nodeIPs : List String)
    (services : List Service) (cfg : Configuration) : List BackendServer :=
  (processServicesLoop nodeIPs cfg services 1).1

/-- The endpoint identity (ip, port, port_name) of one backend. -/
def endpointView (b : BackendServer) : String × Int × String :=
  (b.ip, b.port, b.portName)

/-- The reference endpoint-materialization of the specification,
written from the spec's words (section 4.5): filter services to those
with the enable annotation exactly "true"; for NodePort / LoadBalancer
emit one (nodeIP, node_port, port.name) per matching port per internal
node address; for ClusterIP emit (cluster_ip, target_port, port.name)
per matching port with positive target port; other types contribute
nothing. -/
def specEndpointsForConfig (nodeIPs : List String)
    (services : List Service) (cfg : Configuration) :
    List (String × Int × String) :=
  (services.filter serviceEnabled).flatMap fun svc =>
    match svc.serviceType with
    | .nodePort | .loadBalancer =>
        (svc.ports.filter (fun p => p.name == cfg.backendPortName)).flatMap
          fun p => nodeIPs.map fun ip => (ip, p.nodePort, p.name)
    | .clusterIP =>
        (svc.ports.filter (fun p =>
            p.name == cfg.backendPortName && decide (0 < p.targetPort))).map
          fun p => (svc.clusterIP, p.targetPort, p.name)
    | .other _ => []

theorem emitNodeBackends_view (port : ServicePort) :
    ∀ (nodeIPs : List String) (backendID : Nat),
      (emitNodeBackends port nodeIPs backendID).1.map endpointView =
        nodeIPs.map fun ip => (ip, port.nodePort, port.name) := by
  intro nodeIPs
  induction nodeIPs with
  | nil => intro backendID; rfl
  | cons ip rest ih =>
    intro backendID
    simp only [emitNodeBackends, List.map_cons, ih, endpointView]

theorem nodePortLoop_view (nodeIPs : List String) (pn : String) :
    ∀ (ports : List ServicePort) (backendID : Nat),
      (nodePortLoop nodeIPs pn ports backendID).1.map endpointView =
        (ports.filter (fun p => p.name == pn)).flatMap
          fun p => nodeIPs.map fun ip => (ip, p.nodePort, p.name) := by
  intro ports
  induction ports with
  | nil => intro backendID; rfl
  | cons port rest ih =>
    intro backendID
    by_cases hname : (port.name == pn) = true
    · simp [nodePortLoop, hname, List.filter_cons, emitNodeBackends_view, ih]
    · have hname2 : (port.name == pn) = false := by
        simpa using hname
      simp [nodePortLoop, hname2, List.filter_cons, ih]

theorem clusterIPLoop_view (cip : String) (pn : String) :
    ∀ (ports : List ServicePort) (backendID : Nat),
      (clusterIPLoop cip pn ports backendID).1.map endpointView =
        (ports.filter (fun p =>
            p.name == pn && decide (0 < p.targetPort))).map
          fun p => (cip, p.targetPort, p.name) := by
  intro ports
  induction ports with
  | nil => intro backendID; rfl
  | cons port rest ih =>
    intro backendID
    by_cases hname : (port.name == pn) = true
    · by_cases htp : 0 < port.targetPort
      · simp [clusterIPLoop, hname, htp, List.filter_cons, ih, endpointView]
      · simp [clusterIPLoop, hname, htp, List.filter_cons, ih]
    · have hname2 : (port.name == pn) = false := by
        simpa using hname
      simp [clusterIPLoop, hname2, List.filter_cons, ih]

theorem processServiceForConfig_view (nodeIPs : List String)
    (svc : Service) (cfg : Configuration) (backendID : Nat) :
    (processServiceForConfig nodeIPs svc cfg backendID).1.map endpointView =
      (match svc.serviceType with
       | .nodePort | .loadBalancer =>
           (svc.ports.filter
               (fun p => p.name == cfg.backendPortName)).flatMap
             fun p => nodeIPs.map fun ip => (ip, p.nodePort, p.name)
       | .clusterIP =>
           (svc.ports.filter (fun p =>
               p.name == cfg.backendPortName &&
                 decide (0 < p.targetPort))).map
             fun p => (svc.clusterIP, p.targetPort, p.name)
       | .other _ => []) := by
  cases hty : svc.serviceType with
  | nodePort =>
    simp only [processServiceForConfig, hty, nodePortLoop_view]
  | loadBalancer =>
    simp only [processServiceForConfig, hty, nodePortLoop_view]
  | clusterIP =>
    simp only [processServiceForConfig, hty, clusterIPLoop_view]
  | other t =>
    simp only [processServiceForConfig, hty, List.map_nil]

theorem processServicesLoop_view (nodeIPs : List String)
    (cfg : Configuration) :
    ∀ (services : List Service) (backendID : Nat),
      (processServicesLoop nodeIPs cfg services backendID).1.map
          endpointView =
        specEndpointsForConfig nodeIPs services cfg := by
  intro services
  induction services with
  | nil => intro backendID; rfl
  | cons svc rest ih =>
    intro backendID
    by_cases hen : serviceEnabled svc = true
    · have hview := processServiceForConfig_view nodeIPs svc cfg backendID
      simp only [processServicesLoop, hen, if_true, List.map_append, ih,
        specEndpointsForConfig]
      rw [List.filter_cons, if_pos hen, List.flatMap_cons, hview]
    · have hen2 : serviceEnabled svc = false := by
        simpa using hen
      simp only [processServicesLoop, hen2, Bool.false_eq_true, if_false,
        ih, specEndpointsForConfig]
      rw [List.filter_cons, if_neg (by simp [hen2])]

/-- C2: the endpoint set materialized by processServicesForConfig for a
configuration - viewed as (ip, port, port_name) triples - equals the
specification's reference definition: annotation-gated services only;
NodePort / LoadBalancer services emit one endpoint per internal node
address for each port named cfg.backendPortName, carrying that port's
node_port; ClusterIP services emit (cluster_ip, target_port) for each
matching port with positive target port; other types emit nothing. -/
theorem processServicesForConfig_spec (nodes : List NodeRecord)
    (services : List Service) (cfg : Configuration) :
    (processServicesForConfig (getNodeIPs nodes) services cfg).map
        endpointView =
      specEndpointsForConfig (getNodeIPs nodes) services cfg := by
  unfold processServicesForConfig
  exact processServicesLoop_view (getNodeIPs nodes) cfg services 1

/-- The (ip, port) identity used for set-diffing (kubernetes.go lines
546-556, map keyed by fmt.Sprintf of ip and port). -/
def keyOf (b : BackendServer) : String × Int :=
  (b.ip, b.port)

/-- backendsEqual (kubernetes.go lines 540-559): false when the lengths
differ; otherwise true iff every backend of the new list has its
"ip:port" key in the map built from the old list. -/
def backendsEqual (old new2 : List BackendServer) : Bool :=
  if old.length ≠ new2.length then false
  else new2.all (fun b => old.any (fun o => keyString o == keyString b))

/-- The LoadBalancer state touched by one publication inside
discoverServicesForNamespace (kubernetes.go lines 441-459): the
published backend list, the round-robin cursor lb.nextServer (not
touched by publication) and probeEpoch counting the StartHealthChecks
launches (a probe restart increments it). -/
structure LBPublishState where
  backendServers : List BackendServer
  nextServer : Nat
  probeEpoch : Nat
deriving Repr, DecidableEq

/-- One publication (kubernetes.go lines 446-458): when backendsEqual
holds between the current list and the incoming one, nothing happens;
otherwise SetBackendServers replaces the list and StartHealthChecks is
launched (probeEpoch increments). The cursor is never touched. -/
def publish (s : LBPublishState) (backends : List BackendServer) :
    LBPublishState :=
  if backendsEqual s.backendServers backends then s
  else
    { backendServers := backends, nextServer := s.nextServer,
      probeEpoch := s.probeEpoch + 1 }

theorem keyString_eq_of_keyOf_eq {a b : BackendServer}
    (h : keyOf a = keyOf b) : keyString a = keyString b := by
  have h1 : a.ip = b.ip := congrArg Prod.fst h
  have h2 : a.port = b.port := congrArg Prod.snd h
  unfold keyString
  rw [h1, h2]

theorem backendsEqual_true_of (old new2 : List BackendServer)
    (hlen : old.length = new2.length)
    (hmem : ∀ b ∈ new2, ∃ o ∈ old, keyString o = keyString b) :
    backendsEqual old new2 = true := by
  unfold backendsEqual
  rw [if_neg (by omega)]
  rw [List.all_eq_true]
  intro b hb
  rcases hmem b hb with ⟨o, ho, hk⟩
  rw [List.any_eq_true]
  exact ⟨o, ho, by simp [hk]⟩

theorem backendsEqual_elim {old new2 : List BackendServer}
    (h : backendsEqual old new2 = true) :
    old.length = new2.length ∧
      ∀ b ∈ new2, ∃ o ∈ old, keyString o = keyString b := by
  unfold backendsEqual at h
  by_cases hlen : old.length = new2.length
  · refine ⟨hlen, ?_⟩
    rw [if_neg (by omega)] at h
    rw [List.all_eq_true] at h
    intro b hb
    have hany := h b hb
    rw [List.any_eq_true] at hany
    rcases hany with ⟨o, ho, hk⟩
    exact ⟨o, ho, by simpa using hk⟩
  · rw [if_pos (by omega)] at h
    exact absurd h (by simp)

/-- C3: if publish(X) is followed by publish(Y) and X and Y have equal
(ip, port) sets - order-independent, size-sensitive (equal lengths) -
then the second publication is a no-op: the backend list is not
replaced, StartHealthChecks is not launched again (probeEpoch
unchanged) and the round-robin cursor is unchanged. -/
theorem publish_setEqual_noop (s : LBPublishState)
    (X Y : List BackendServer)
    (hlen : X.length = Y.length)
    (hXY : ∀ b ∈ Y, keyOf b ∈ X.map keyOf)
    (hYX : ∀ b ∈ X, keyOf b ∈ Y.map keyOf) :
    publish (publish s X) Y = publish s X := by
  have hkeys : ∀ b ∈ Y, ∃ o ∈ X, keyString o = keyString b := by
    intro b hb
    rcases List.mem_map.mp (hXY b hb) with ⟨o, ho, hk⟩
    exact ⟨o, ho, keyString_eq_of_keyOf_eq hk⟩
  unfold publish
  by_cases hfirst : backendsEqual s.backendServers X = true
  · rw [if_pos hfirst]
    have helim := backendsEqual_elim hfirst
    have hsecond : backendsEqual s.backendServers Y = true := by
      apply backendsEqual_true_of
      · omega
      · intro b hb
        rcases hkeys b hb with ⟨x, hx, hkx⟩
        rcases helim.2 x hx with ⟨o, ho, hko⟩
        exact ⟨o, ho, by rw [hko, hkx]⟩
    rw [if_pos hsecond]
  · rw [if_neg hfirst]
    have hsecond : backendsEqual X Y = true :=
      backendsEqual_true_of X Y hlen hkeys
    simp only [hsecond, if_true]

/-- Witness for C3: republishing the same two backends in reversed
order (the spec's scenario S6) leaves the state - list, cursor and
probe epoch - unchanged. -/
theorem publish_setEqual_noop_witness :
    publish (publish ⟨[], 0, 0⟩ [bHttp, bHttp2]) [bHttp2, bHttp] =
      publish ⟨[], 0, 0⟩ [bHttp, bHttp2] :=
  publish_setEqual_noop ⟨[], 0, 0⟩ [bHttp, bHttp2] [bHttp2, bHttp]
    (by decide) (by decide) (by decide)

/-- k consecutive getNextBackend calls on a fixed published list
(no publication in between), collecting the returned backends and
threading lb.nextServer. Collection stops if a call reports no
backend (it never does under the fairness hypotheses). -/
def runNextCalls (servers : List BackendServer) (pn : String) :
    Nat → Nat → List BackendServer × Nat
  | 0, cursor => ([], cursor)
  | k + 1, cursor =>
      match getNextBackend servers pn cursor with
      | (some b, c) =>
          let r := runNextCalls servers pn k c
          (b :: r.1, r.2)
      | (none, c) => ([], c)

theorem getNextBackend_allHealthy (servers : List BackendServer)
    (pn : String) (cursor : Nat)
    (hne : (filterByPortName servers pn).length ≠ 0)
    (hh : ∀ b ∈ filterByPortName servers pn, b.healthy = true) :
    getNextBackend servers pn cursor =
      (some ((filterByPortName servers pn).get
          ⟨(cursor + 1) % (filterByPortName servers pn).length,
           Nat.mod_lt _ (Nat.pos_of_ne_zero hne)⟩),
       (cursor + 1) % (filterByPortName servers pn).length) := by
  have hserv : servers.isEmpty = false := by
    cases hs : servers with
    | nil =>
      exfalso
      apply hne
      rw [hs] at hne ⊢
      rfl
    | cons a l => rfl
  unfold getNextBackend getNextBackendAux
  rw [hserv]
  simp only [Bool.false_eq_true, if_false]
  rw [dif_neg hne]
  have hmem := List.get_mem (filterByPortName servers pn)
    ((cursor + 1) % (filterByPortName servers pn).length)
    (Nat.mod_lt _ (Nat.pos_of_ne_zero hne))
  rw [if_pos (hh _ hmem)]

theorem runNextCalls_allHealthy (servers : List BackendServer)
    (pn : String)
    (hne : (filterByPortName servers pn).length ≠ 0)
    (hh : ∀ b ∈ filterByPortName servers pn, b.healthy = true) :
    ∀ (k cursor : Nat),
      (runNextCalls servers pn k cursor).1 =
        List.ofFn (fun i : Fin k =>
          (filterByPortName servers pn).get
            ⟨(cursor + 1 + i) % (filterByPortName servers pn).length,
             Nat.mod_lt _ (Nat.pos_of_ne_zero hne)⟩) := by
  intro k
  induction k with
  | zero => intro cursor; rfl
  | succ n ih =>
    intro cursor
    unfold runNextCalls
    rw [getNextBackend_allHealthy servers pn cursor hne hh]
    simp only
    rw [ih ((cursor + 1) % (filterByPortName servers pn).length)]
    rw [List.ofFn_succ]
    refine List.cons_eq_cons.mpr ⟨?_, ?_⟩
    · apply congrArg (filterByPortName servers pn).get
      apply Fin.ext
      simp
    · apply congrArg List.ofFn
      funext i
      apply congrArg (filterByPortName servers pn).get
      apply Fin.ext
      simp only [Fin.val_succ]
      conv_lhs => rw [Nat.add_assoc]
      rw [Nat.mod_add_mod]
      congr 1
      omega

theorem ofFn_get_eq_rotate (servers : List BackendServer) (pn : String)
    (cursor : Nat) (hne : (filterByPortName servers pn).length ≠ 0) :
    List.ofFn (fun i : Fin (filterByPortName servers pn).length =>
        (filterByPortName servers pn).get
          ⟨(cursor + 1 + i) % (filterByPortName servers pn).length,
           Nat.mod_lt _ (Nat.pos_of_ne_zero hne)⟩) =
      (filterByPortName servers pn).rotate
        ((cursor + 1) % (filterByPortName servers pn).length) := by
  apply List.ext_get
  · simp [List.length_rotate]
  · intro n h1 h2
    rw [List.get_ofFn, List.get_rotate]
    apply congrArg (filterByPortName servers pn).get
    apply Fin.ext
    simp only [Fin.coe_cast]
    rw [Nat.add_mod_mod]
    congr 1
    omega

/-- C7: on a fixed published list whose port-name-filtered sublist has
size k with every filtered backend healthy, and with no publication in
between, k consecutive getNextBackend calls return a permutation of the
filtered list (each endpoint exactly once): the calls walk the list as
a rotation starting one past the incoming cursor. -/
theorem roundRobin_fairness (servers : List BackendServer) (pn : String)
    (cursor : Nat)
    (hne : (filterByPortName servers pn).length ≠ 0)
    (hh : ∀ b ∈ filterByPortName servers pn, b.healthy = true) :
    List.Perm
      (runNextCalls servers pn
        (filterByPortName servers pn).length cursor).1
      (filterByPortName servers pn) := by
  rw [runNextCalls_allHealthy servers pn hne hh
      (filterByPortName servers pn).length cursor]
  rw [ofFn_get_eq_rotate servers pn cursor hne]
  exact List.rotate_perm _ _

/-- Witness for C7: two healthy http backends, two consecutive calls
from cursor 0 return each backend exactly once. -/
theorem roundRobin_fairness_witness :
    List.Perm
      (runNextCalls [bHttp, bHttp2] "http"
        (filterByPortName [bHttp, bHttp2] "http").length 0).1
      (filterByPortName [bHttp, bHttp2] "http") :=
  roundRobin_fairness [bHttp, bHttp2] "http" 0 (by decide) (by decide)
